import Mathlib

/-!
Verification development for the QualifyLeadsVoiceAI live-session core
(components/LiveSession.tsx, plus types.ts).  The definitions below are a
shallow embedding of the audio frame codec, the playback scheduler, the
transcript assembler and the session controller of that component; floats
are modelled as rationals, JavaScript Date values as natural-number ticks,
and the DOM/SDK callbacks as explicit state-transition functions.
-/

namespace QLV

/-! ## Frame codec: base64 transport encoding (LiveSession.tsx, encode / decode)

The source builds a latin-1 binary string from the byte buffer with
String.fromCharCode and feeds it to the platform primitive btoa; decoding
uses atob and charCodeAt.  btoa/atob implement RFC 4648 base64 over the
byte values of that string, which is what b64encode/b64decode compute. -/

def b64Alphabet : List Char :=
  "ABCDEFGHIJKLMNOPQRSTUVWXYZabcdefghijklmnopqrstuvwxyz0123456789+/".toList

/-- Character of the base64 alphabet at index n (n < 64 in every use). -/
def b64char (n : Nat) : Char := b64Alphabet.getD n '='

/-- Index of a base64 character in the alphabet, as atob recovers it. -/
def b64value (c : Char) : Nat := b64Alphabet.indexOf c

/-- Model of encode (LiveSession.tsx lines 32-39): byte list to base64
character list, three bytes per four output characters, padded with =. -/
def encode : List Nat → List Char
  | [] => []
  | [a] => [b64char (a / 4), b64char ((a % 4) * 16), '=', '=']
  | [a, b] => [b64char (a / 4), b64char ((a % 4) * 16 + b / 16), b64char ((b % 16) * 4), '=']
  | a :: b :: c :: rest =>
      b64char (a / 4) :: b64char ((a % 4) * 16 + b / 16) ::
      b64char ((b % 16) * 4 + c / 64) :: b64char (c % 64) :: encode rest

/-- Model of decode (LiveSession.tsx lines 41-49): base64 character list
back to the byte list, honouring terminal = padding as atob does. -/
def decode : List Char → List Nat
  | c1 :: c2 :: c3 :: c4 :: rest =>
      let v1 := b64value c1
      let v2 := b64value c2
      let b0 := v1 * 4 + v2 / 16
      if c3 = '=' then [b0]
      else
        let v3 := b64value c3
        let b1 := (v2 % 16) * 16 + v3 / 4
        if c4 = '=' then [b0, b1]
        else b0 :: b1 :: ((v3 % 4) * 64 + b64value c4) :: decode rest
  | _ => []

/-! ## Frame codec: PCM16 quantization (LiveSession.tsx, createBlob / decodeAudioData) -/

/-- JavaScript number-to-integer conversion (ToIntegerOrInfinity):
truncation toward zero, here on exact rationals. -/
def truncJS (x : ℚ) : ℤ := if 0 ≤ x then ⌊x⌋ else ⌈x⌉

/-- Assignment of a number to an Int16Array element (ToInt16): truncate,
reduce mod 2^16, reinterpret as a signed 16-bit value.  No clipping. -/
def toInt16 (x : ℚ) : ℤ :=
  if truncJS x % 65536 < 32768 then truncJS x % 65536 else truncJS x % 65536 - 65536

/-- Little-endian byte pair of a signed 16-bit value, as the Uint8Array
view over the Int16Array buffer exposes it (createBlob, line 27). -/
def int16ToBytes (v : ℤ) : List Nat :=
  [(v % 65536).toNat % 256, (v % 65536).toNat / 256]

/-- Model of createBlob (LiveSession.tsx lines 20-30): every float sample
is scaled by 32768 and stored into an Int16Array (wraparound, no
clipping); the resulting buffer is the payload.  This is the Int16Array
contents. -/
def createBlobInt16 (data : List ℚ) : List ℤ :=
  data.map fun s => toInt16 (s * 32768)

/-- Byte buffer of the blob: the little-endian Uint8Array view. -/
def createBlobBytes (data : List ℚ) : List Nat :=
  (createBlobInt16 data).flatMap int16ToBytes

/-- Model of the data field produced by createBlob: base64 of the bytes. -/
def createBlobData (data : List ℚ) : List Char :=
  encode (createBlobBytes data)

/-- Reinterpretation of a byte buffer as an Int16Array (decodeAudioData,
line 57): consecutive little-endian byte pairs become signed 16-bit
values. -/
def bytesToInt16s : List Nat → List ℤ
  | b0 :: b1 :: rest =>
      (if (b0 : ℤ) + 256 * b1 < 32768 then (b0 : ℤ) + 256 * b1
       else (b0 : ℤ) + 256 * b1 - 65536) :: bytesToInt16s rest
  | _ => []

/-- Model of decodeAudioData (LiveSession.tsx lines 51-68): deinterleave
numChannels channels of int16 samples and divide each by 32768.  Returns
the list of per-channel float buffers. -/
def decodeAudioData (data : List Nat) (numChannels : Nat) : List (List ℚ) :=
  let dataInt16 := bytesToInt16s data
  let frameCount := dataInt16.length / numChannels
  (List.range numChannels).map fun channel =>
    (List.range frameCount).map fun i =>
      ((dataInt16.getD (i * numChannels + channel) 0 : ℤ) : ℚ) / 32768

/-- Round trip used by the inbound audio path with the mono call of the
source (onmessage passes numChannels = 1): encoded samples back to
floats. -/
def monoRoundTrip (data : List ℚ) : List ℚ :=
  (decodeAudioData (decode (createBlobData data)) 1).headD []

/-! ## Session data model (types.ts and LiveSession.tsx component state) -/

/-- SessionStatus (types.ts lines 9-14): exactly these four values. -/
inductive SessionStatus
  | DISCONNECTED
  | CONNECTING
  | CONNECTED
  | ERROR
deriving DecidableEq, Repr

/-- Speaker role of a chat message (LiveSession.tsx line 14). -/
inductive Role
  | user
  | assistant
deriving DecidableEq, Repr

/-- ChatMessage (LiveSession.tsx lines 13-17); Date modelled as a tick. -/
structure ChatMessage where
  role : Role
  text : String
  timestamp : Nat
deriving DecidableEq, Repr

/-- A scheduled playback unit: start time on the output clock and
duration, both in seconds (an AudioBufferSourceNode started at a time). -/
def PlaybackUnit := ℚ × ℚ
deriving DecidableEq

/-- Mutable component state of LiveSession (useState hooks lines 71-82
and refs lines 92-104).  The sources set is kept as a list, most recently
scheduled unit first; sessionOpen stands for sessionPromiseRef holding a
live channel. -/
structure LiveState where
  status : SessionStatus
  isMuted : Bool
  errorMsg : Option String
  logs : List String
  aiSpeaking : Bool
  userSpeaking : Bool
  history : List ChatMessage
  realtimeInput : String
  realtimeOutput : String
  inputBuffer : String
  outputBuffer : String
  nextStartTime : ℚ
  sources : List PlaybackUnit
  retryTrigger : Nat
  sessionOpen : Bool

/-- Initial component state (useState/useRef initial values, lines
71-104): status CONNECTING, nothing muted, empty buffers, cursor 0. -/
def initState : LiveState :=
  { status := .CONNECTING
    isMuted := false
    errorMsg := none
    logs := []
    aiSpeaking := false
    userSpeaking := false
    history := []
    realtimeInput := ""
    realtimeOutput := ""
    inputBuffer := ""
    outputBuffer := ""
    nextStartTime := 0
    sources := []
    retryTrigger := 0
    sessionOpen := false }

/-! ## Small helpers shared by the handlers -/

/-- Whitespace test for the characters JavaScript trim removes that can
occur in this pipeline (ASCII space, tab, newline, carriage return). -/
def isJsWs (c : Char) : Bool := c = ' ' || c = '\t' || c = '\n' || c = '\r'

/-- Model of the JavaScript String.prototype.trim call used on the
transcription buffers: drop whitespace from both ends. -/
def jsTrim (s : String) : String :=
  String.mk (((s.data.dropWhile isJsWs).reverse.dropWhile isJsWs).reverse)

/-- Model of addLog (LiveSession.tsx lines 118-120):
setLogs(prev => [...prev.slice(-4), msg]).  slice(-4) keeps the last four
entries (all of them when fewer). -/
def addLog (prev : List String) (msg : String) : List String :=
  prev.drop (prev.length - 4) ++ [msg]

/-! ## Playback scheduler (onmessage audio branch, lines 262-289)

The onmessage handler is split at its await point: audioPre is the code
run synchronously before awaiting decodeAudioData (entry guard aside),
decodeDone is the continuation resumed when the decode promise settles.
now is outputCtx.currentTime at handler entry, dur the decoded duration. -/

/-- Code before the await (lines 264-266): mark the assistant speaking
and pull the cursor up to the current output-clock time. -/
def audioPre (now : ℚ) (st : LiveState) : LiveState :=
  { st with aiSpeaking := true, nextStartTime := max st.nextStartTime now }

/-- Continuation after the decode resolves (lines 275-288): start the
unit at the cursor, advance the cursor by the duration, record the unit.
The source performs no check of the active teardown flag here, so the
parameter is unused. -/
def decodeDone (_activeAtCompletion : Bool) (dur : ℚ) (st : LiveState) : LiveState :=
  { st with
    sources := (st.nextStartTime, dur) :: st.sources
    nextStartTime := st.nextStartTime + dur }

/-- One inbound audio chunk processed to completion with no interleaving
(sequential event loop): pre phase then decode continuation. -/
def handleAudioChunk (now dur : ℚ) (st : LiveState) : LiveState :=
  decodeDone true dur (audioPre now st)

/-- A run of the scheduler over a list of (arrival clock, duration)
chunks of one assistant turn, processed in order. -/
def runChunks (st : LiveState) : List (ℚ × ℚ) → LiveState
  | [] => st
  | (now, dur) :: rest => runChunks (handleAudioChunk now dur st) rest

/-- Timeliness of a chunk sequence: starting from cursor c, every chunk
arrives while the output clock has not passed the cursor. -/
def inTime : ℚ → List (ℚ × ℚ) → Prop
  | _, [] => True
  | c, (now, dur) :: rest => now ≤ c ∧ inTime (max c now + dur) rest

/-- Gapless chain on the sources list (most recent first): each unit
starts exactly where the unit scheduled before it ends. -/
def gapless (units : List PlaybackUnit) : Prop :=
  List.Chain' (fun a b => a.1 = b.1 + b.2) units

/-- Overlap-free chain on the sources list (most recent first): each unit
starts no earlier than the end of the unit scheduled before it. -/
def overlapFree (units : List PlaybackUnit) : Prop :=
  List.Chain' (fun a b => b.1 + b.2 ≤ a.1) units

/-! ## Transcript assembler (onmessage transcription branches, lines 291-344) -/

/-- Model of the turnComplete branch (LiveSession.tsx lines 308-326):
trim both accumulators, append a user turn and then an assistant turn for
the non-empty trimmed texts with one shared timestamp, clear the
accumulators and the live partial displays. -/
def handleTurnComplete (now : Nat) (st : LiveState) : LiveState :=
  let userText := jsTrim st.inputBuffer
  let aiText := jsTrim st.outputBuffer
  let h1 := if userText ≠ "" then st.history ++ [⟨.user, userText, now⟩] else st.history
  let h2 := if aiText ≠ "" then h1 ++ [⟨.assistant, aiText, now⟩] else h1
  { st with
    history := h2
    inputBuffer := ""
    outputBuffer := ""
    realtimeInput := ""
    realtimeOutput := "" }

/-- Model of the interrupted branch (LiveSession.tsx lines 328-344): log,
stop and forget every scheduled source, reset the cursor to 0, clear the
speaking flag; when the trimmed assistant accumulator is non-empty,
append it to the history with the "..." truncation marker; clear the
assistant accumulator and its live display. -/
def handleInterrupted (now : Nat) (st : LiveState) : LiveState :=
  let st1 := { st with
    logs := addLog st.logs "Interrupted by user"
    sources := ([] : List PlaybackUnit)
    nextStartTime := (0 : ℚ)
    aiSpeaking := false }
  let st2 :=
    if jsTrim st.outputBuffer ≠ "" then
      { st1 with history := st1.history ++ [⟨.assistant, jsTrim st.outputBuffer ++ "...", now⟩] }
    else st1
  { st2 with outputBuffer := "", realtimeOutput := "" }

/-! ## Capture pipeline (onaudioprocess, LiveSession.tsx lines 230-253) -/

/-- A captured microphone block together with the value the mute flag ref
holds when the block arrives. -/
structure CaptureBlock where
  muted : Bool
  samples : List ℚ
deriving Repr

/-- Energy gate of the cosmetic voice-activity indicator.  The source
compares sqrt(mean of squares) > 0.02; both sides are nonnegative, so
this is equivalent to mean of squares > 1/2500, which is exact on
rationals.  An empty block yields NaN in JavaScript and the comparison is
false, matching the emptiness test here. -/
def vadActive (samples : List ℚ) : Bool :=
  decide (samples ≠ []) &&
    decide ((samples.foldl (fun a x => a + x * x) 0) / (samples.length : ℚ) > 1 / 2500)

/-- Model of one onaudioprocess callback (lines 230-253): when the mute
ref is set or teardown has begun, return immediately (nothing is sent or
buffered); otherwise update the speaking indicator and, when the session
promise is live, encode the block with createBlob and send it.  The
returned option is the transmitted frame, none meaning no network
traffic. -/
def onaudioprocess (active hasSession : Bool) (blk : CaptureBlock) (st : LiveState) :
    LiveState × Option (List Char) :=
  if blk.muted || !active then (st, none)
  else
    let st1 := if vadActive blk.samples then { st with userSpeaking := true } else st
    (st1, if hasSession then some (createBlobData blk.samples) else none)

/-- A run of the capture pipeline over a sequence of captured blocks,
collecting the frames actually transmitted in order. -/
def processBlocks (active hasSession : Bool) (st : LiveState) :
    List CaptureBlock → LiveState × List (List Char)
  | [] => (st, [])
  | blk :: rest =>
      let step := onaudioprocess active hasSession blk st
      let next := processBlocks active hasSession step.1 rest
      (next.1, match step.2 with
               | some f => f :: next.2
               | none => next.2)

/-! ## Session controller (LiveSession.tsx lines 148-178 and 180-395) -/

/-- Model of toggleMute (LiveSession.tsx lines 389-391): flip the mute
flag; nothing else is touched. -/
def toggleMute (st : LiveState) : LiveState :=
  { st with isMuted := !st.isMuted }

/-- Dependency key of the session effect (line 387): the effect that
opens the channel and the audio devices re-runs exactly when
[config, disconnect, retryTrigger] changes; config is a constant prop of
the mounted component and disconnect a useCallback with empty
dependencies, so within one mounted session only retryTrigger matters. -/
def effectDeps (st : LiveState) : Nat := st.retryTrigger

/-- State reset performed at the top of startSession (lines 189-193):
status CONNECTING, error cleared, history cleared, both transcription
accumulators cleared. -/
def startSessionReset (st : LiveState) : LiveState :=
  { st with
    status := .CONNECTING
    errorMsg := none
    history := []
    inputBuffer := ""
    outputBuffer := "" }

/-- JavaScript a || b on strings (falsy empty string), as used in the
setup error handler. -/
def jsOrElse (m dflt : String) : String := if m = "" then dflt else m

/-- Setup failures distinguished by the claims: the explicit missing-key
throw (line 186), a rejected getUserMedia call, and any other device or
client initialization failure reaching the same catch. -/
inductive SetupFailure
  | missingKey
  | micDenied (msg : String)
  | deviceInitFail (msg : String)

/-- Message carried by a setup failure; the missing-key throw uses the
literal message of line 186. -/
def failureMessage : SetupFailure → String
  | .missingKey => "API Key not found in environment."
  | .micDenied m => m
  | .deviceInitFail m => m

/-- Model of the catch block of startSession (lines 374-378): surface
err.message (or the fallback text) as the single error message and move
to ERROR. -/
def startSessionFail (f : SetupFailure) (st : LiveState) : LiveState :=
  { st with
    errorMsg := some (jsOrElse (failureMessage f) "Failed to initialize session")
    status := .ERROR }

/-- Model of the onerror callback (lines 352-358): when the session is
still active, overwrite the error message and move to ERROR. -/
def onerrorCb (active : Bool) (msg : String) (st : LiveState) : LiveState :=
  if active then
    { st with errorMsg := some ("Connection Error: " ++ msg), status := .ERROR }
  else st

/-- Model of the onclose callback (lines 346-351): when still active,
log and move to DISCONNECTED. -/
def oncloseCb (active : Bool) (st : LiveState) : LiveState :=
  if active then
    { st with logs := addLog st.logs "Session Closed", status := .DISCONNECTED }
  else st

/-- Retry banner condition (line 421): the error banner with its Retry
button is rendered exactly when the status is ERROR. -/
def retryVisible (st : LiveState) : Bool := st.status == .ERROR

/-- Events that assign the status state variable, one per setStatus call
site of LiveSession.tsx: startSession entry (line 189), onopen
(line 220), the setup catch (line 377), onclose (line 349), onerror
(line 356), and disconnect (line 177, also run by the effect cleanup on
retry or unmount). -/
inductive SEvent
  | startEvt
  | openEvt
  | setupFailEvt
  | closeEvt
  | errorEvt
  | teardownEvt
deriving DecidableEq, Repr

/-- Status transition taken by each event; every call site assigns the
new status unconditionally, whatever the previous status was. -/
def statusStep : SessionStatus → SEvent → SessionStatus
  | _, .startEvt => .CONNECTING
  | _, .openEvt => .CONNECTED
  | _, .setupFailEvt => .ERROR
  | _, .closeEvt => .DISCONNECTED
  | _, .errorEvt => .ERROR
  | _, .teardownEvt => .DISCONNECTED

/-- Session states as the specification names them, including the Idle
state the claim lists. -/
inductive SpecSessionState
  | Idle
  | Connecting
  | Connected
  | Disconnected
  | Errored
deriving DecidableEq, Repr

/-- Renaming of the code statuses into the specification names. -/
def toSpec : SessionStatus → SpecSessionState
  | .CONNECTING => .Connecting
  | .CONNECTED => .Connected
  | .DISCONNECTED => .Disconnected
  | .ERROR => .Errored

/-- Transition relation of the state machine exactly as the claim states
it: Idle to Connecting; Connecting to Connected or Errored; Connected to
Disconnected or Errored; any state to Idle on retry. -/
def specAllowedStep (a b : SpecSessionState) : Bool :=
  (a == .Idle && b == .Connecting) ||
  (a == .Connecting && (b == .Connected || b == .Errored)) ||
  (a == .Connected && (b == .Disconnected || b == .Errored)) ||
  (b == .Idle)

/-- Component state holding a whitespace-only assistant accumulator and
one scheduled unit, as reached when the model emits a fragment of pure
whitespace and is then interrupted. -/
def wsOutputState : LiveState :=
  { initState with outputBuffer := " ", sources := [((0 : ℚ), (1 : ℚ))] }

/-- Component state holding a whitespace-only user accumulator and a
non-blank assistant accumulator when turnComplete arrives. -/
def wsInputState : LiveState :=
  { initState with inputBuffer := " ", outputBuffer := "Hi" }

/-- Cursor coherence invariant of the scheduler: the cursor sits exactly
at the end of the most recently scheduled unit. -/
def cursorAtHead (st : LiveState) : Prop :=
  match st.sources with
  | [] => True
  | u :: _ => st.nextStartTime = u.1 + u.2

/-!
## Theorems
-/

/-- C10: addLog keeps the log bounded: after every append the log has
min(previous length, 4) + 1 entries, so at most five; the appended
message is the last entry; and what precedes it is a suffix of the
previous log, so exactly the most recent prior entries survive. -/
theorem addLog_bounded_keeps_recent (prev : List String) (msg : String) :
    (addLog prev msg).length = min prev.length 4 + 1 ∧
    (addLog prev msg).getLast? = some msg ∧
    (addLog prev msg).dropLast.IsSuffix prev := by
  refine ⟨?_, ?_, ?_⟩
  · simp only [addLog, List.length_append, List.length_drop, List.length_cons,
      List.length_nil]
    omega
  · simp [addLog, List.getLast?_concat]
  · simp only [addLog, List.dropLast_concat]
    exact List.drop_suffix _ _

/-- C6: toggleMute flips the mute flag and leaves every other piece of
session state untouched: status, channel, scheduler cursor and active
units, history, accumulators, error message; and it leaves the session
effect dependency key unchanged, so the channel and audio devices are
neither torn down nor restarted. -/
theorem toggleMute_touches_only_mute_flag (st : LiveState) :
    (toggleMute st).isMuted = !st.isMuted ∧
    (toggleMute st).status = st.status ∧
    (toggleMute st).sessionOpen = st.sessionOpen ∧
    (toggleMute st).sources = st.sources ∧
    (toggleMute st).nextStartTime = st.nextStartTime ∧
    (toggleMute st).history = st.history ∧
    (toggleMute st).errorMsg = st.errorMsg ∧
    (toggleMute st).inputBuffer = st.inputBuffer ∧
    (toggleMute st).outputBuffer = st.outputBuffer ∧
    (toggleMute st).logs = st.logs ∧
    effectDeps (toggleMute st) = effectDeps st := by
  refine ⟨rfl, rfl, rfl, rfl, rfl, rfl, rfl, rfl, rfl, rfl, rfl⟩

/-- C9: every setup failure reaching the catch of startSession is fatal
to the attempt: the status becomes ERROR, the single error-message slot
holds the failure message, the retry banner is rendered; and a later
error overwrites the message rather than queueing beside it. -/
theorem setup_failure_fatal_single_error_retry (f : SetupFailure) (st : LiveState) :
    (startSessionFail f st).status = .ERROR ∧
    (startSessionFail f st).errorMsg =
      some (jsOrElse (failureMessage f) "Failed to initialize session") ∧
    retryVisible (startSessionFail f st) = true ∧
    ∀ m : String, (onerrorCb true m (startSessionFail f st)).errorMsg =
      some ("Connection Error: " ++ m) :=
  ⟨rfl, rfl, rfl, fun _ => rfl⟩

/-- C8 counterexample: on a retry from a torn-down session the program
assigns CONNECTING while the status is DISCONNECTED (the effect cleanup
has run disconnect, then startSession runs).  Under the naming of the
claim this is a Disconnected-to-Connecting transition, which the claimed
machine does not allow, and no code status maps to the claimed Idle
state. -/
theorem status_retry_transition_not_in_spec_machine :
    statusStep .DISCONNECTED .startEvt = .CONNECTING ∧
    toSpec .DISCONNECTED = .Disconnected ∧
    toSpec .CONNECTING = .Connecting ∧
    specAllowedStep .Disconnected .Connecting = false ∧
    (∀ s : SessionStatus, toSpec s ≠ .Idle) := by
  refine ⟨rfl, rfl, rfl, rfl, fun s => ?_⟩
  cases s <;> simp [toSpec]

/-- C8 (amended): the status variable ranges over the four values of
SessionStatus, none of which is an Idle state; every assignment moves to
CONNECTING at session start, to CONNECTED on open, to ERROR on setup
failure or channel error, and to DISCONNECTED on close or teardown;
retry tears the session down (DISCONNECTED) and then restarts it
(CONNECTING), and the restart clears the history, the error message and
both accumulators. -/
theorem status_machine_of_code :
    (∀ s : SessionStatus,
        s = .DISCONNECTED ∨ s = .CONNECTING ∨ s = .CONNECTED ∨ s = .ERROR) ∧
    (∀ s, statusStep s .teardownEvt = .DISCONNECTED) ∧
    (∀ s, statusStep s .startEvt = .CONNECTING) ∧
    statusStep .CONNECTING .openEvt = .CONNECTED ∧
    statusStep .CONNECTING .setupFailEvt = .ERROR ∧
    statusStep .CONNECTED .closeEvt = .DISCONNECTED ∧
    statusStep .CONNECTED .errorEvt = .ERROR ∧
    (∀ s, statusStep (statusStep s .teardownEvt) .startEvt = .CONNECTING) ∧
    (∀ st : LiveState,
        (startSessionReset st).history = [] ∧
        (startSessionReset st).status = .CONNECTING ∧
        (startSessionReset st).errorMsg = none ∧
        (startSessionReset st).inputBuffer = "" ∧
        (startSessionReset st).outputBuffer = "") := by
  refine ⟨fun s => ?_, fun _ => rfl, fun _ => rfl, rfl, rfl, rfl, rfl, fun _ => rfl,
    fun st => ⟨rfl, rfl, rfl, rfl, rfl⟩⟩
  cases s <;> simp

/-- C5: a block arriving while the mute ref is set is dropped with no
frame produced, whatever the other flags; and over any sequence of
captured blocks in an active session with a live channel, the frames
transmitted are exactly the createBlob encodings of the unmuted blocks in
order — muted blocks are never buffered or retransmitted, and an unmuted
block is sent even when it directly follows muted ones. -/
theorem mute_gates_transmission :
    (∀ (active hasSession : Bool) (s : List ℚ) (st : LiveState),
        (onaudioprocess active hasSession ⟨true, s⟩ st).2 = none) ∧
    (∀ (st : LiveState) (blocks : List CaptureBlock),
        (processBlocks true true st blocks).2 =
          (blocks.filter (fun b => !b.muted)).map (fun b => createBlobData b.samples)) := by
  constructor
  · intro active hasSession s st
    simp [onaudioprocess]
  · intro st blocks
    induction blocks generalizing st with
    | nil => rfl
    | cons b rest ih =>
      cases hm : b.muted with
      | true => simp [processBlocks, onaudioprocess, hm, ih]
      | false => simp [processBlocks, onaudioprocess, hm, ih]

/-- C7: the channel callbacks are guarded by the active flag, but the
continuation resumed after an awaited audio decode is not: run with the
teardown flag already cleared, it still schedules the decoded unit and
advances the cursor.  From the pristine state it records a new playback
unit and moves the cursor, a state mutation after teardown. -/
theorem decode_completion_mutates_after_teardown :
    (decodeDone false 1 initState).sources = [((0 : ℚ), (1 : ℚ))] ∧
    initState.sources = [] ∧
    (decodeDone false 1 initState).nextStartTime = 1 ∧
    oncloseCb false initState = initState ∧
    onerrorCb false "boom" initState = initState := by
  refine ⟨rfl, rfl, ?_, rfl, rfl⟩
  show (0 : ℚ) + 1 = 1
  norm_num

/-- C3 counterexample: with a whitespace-only assistant accumulator —
non-empty as a string — the interrupted handler commits nothing: the
history stays empty, although the claim requires a truncated assistant
turn to be appended for every non-empty accumulator. -/
theorem interrupted_whitespace_not_committed :
    wsOutputState.outputBuffer ≠ "" ∧
    (handleInterrupted 0 wsOutputState).history = [] := by
  constructor
  · decide
  · have h : jsTrim " " = "" := by decide
    simp [handleInterrupted, wsOutputState, initState, h]

/-- C3 (amended): on interrupted, every scheduled unit is stopped and
the active set becomes empty, the cursor resets to zero and the speaking
flag clears; when the assistant accumulator is non-empty after trimming,
the trimmed text suffixed with the "..." marker is appended to the
history as one assistant turn, otherwise nothing is committed; the
assistant accumulator and its live display are cleared, and the user
accumulator and its display are untouched. -/
theorem interrupted_flush_and_truncated_commit (now : Nat) (st : LiveState) :
    (handleInterrupted now st).sources = [] ∧
    (handleInterrupted now st).nextStartTime = 0 ∧
    (handleInterrupted now st).aiSpeaking = false ∧
    (handleInterrupted now st).history =
      (if jsTrim st.outputBuffer ≠ ""
        then st.history ++ [⟨Role.assistant, jsTrim st.outputBuffer ++ "...", now⟩]
        else st.history) ∧
    (handleInterrupted now st).outputBuffer = "" ∧
    (handleInterrupted now st).realtimeOutput = "" ∧
    (handleInterrupted now st).inputBuffer = st.inputBuffer ∧
    (handleInterrupted now st).realtimeInput = st.realtimeInput := by
  unfold handleInterrupted
  by_cases h : jsTrim st.outputBuffer ≠ "" <;> simp [h]

/-- C4 counterexample: a turnComplete arriving with a whitespace-only
user accumulator and a non-blank assistant accumulator — both non-empty
as strings — appends exactly one history entry, although the claim
requires two whenever both accumulators are non-empty. -/
theorem turnComplete_whitespace_user_skipped :
    wsInputState.inputBuffer ≠ "" ∧
    wsInputState.outputBuffer ≠ "" ∧
    (handleTurnComplete 0 wsInputState).history.length =
      wsInputState.history.length + 1 := by
  refine ⟨by decide, by decide, ?_⟩
  have h1 : jsTrim " " = "" := by decide
  have h2 : jsTrim "Hi" = "Hi" := by decide
  have h3 : ("Hi" : String) ≠ "" := by decide
  simp [handleTurnComplete, wsInputState, initState, h1, h2, h3]

/-- C4 (amended): on turnComplete, a user turn is appended when the user
accumulator is non-empty after trimming and an assistant turn is
appended when the assistant accumulator is non-empty after trimming, in
that order, each carrying the trimmed text and the one shared timestamp;
both accumulators and both live partial displays are empty afterwards. -/
theorem turnComplete_commits_trimmed_turns (now : Nat) (st : LiveState) :
    (handleTurnComplete now st).history =
      st.history
        ++ (if jsTrim st.inputBuffer ≠ ""
              then [⟨Role.user, jsTrim st.inputBuffer, now⟩] else [])
        ++ (if jsTrim st.outputBuffer ≠ ""
              then [⟨Role.assistant, jsTrim st.outputBuffer, now⟩] else []) ∧
    (handleTurnComplete now st).inputBuffer = "" ∧
    (handleTurnComplete now st).outputBuffer = "" ∧
    (handleTurnComplete now st).realtimeInput = "" ∧
    (handleTurnComplete now st).realtimeOutput = "" := by
  unfold handleTurnComplete
  by_cases h1 : jsTrim st.inputBuffer ≠ "" <;> by_cases h2 : jsTrim st.outputBuffer ≠ "" <;>
    simp [h1, h2]

/-- One audio chunk: the new unit starts at max(cursor, clock) and the
cursor moves to the end of that unit. -/
theorem handleAudioChunk_unfold (now dur : ℚ) (st : LiveState) :
    (handleAudioChunk now dur st).sources =
      (max st.nextStartTime now, dur) :: st.sources ∧
    (handleAudioChunk now dur st).nextStartTime = max st.nextStartTime now + dur :=
  ⟨rfl, rfl⟩

/-- Invariant preservation for timely chunk sequences: when every chunk
arrives while the clock is at or behind the cursor, the cursor stays at
the end of the head unit and the schedule stays gapless. -/
theorem runChunks_gapless_inv (evs : List (ℚ × ℚ)) :
    ∀ st : LiveState, cursorAtHead st → gapless st.sources →
      inTime st.nextStartTime evs →
      cursorAtHead (runChunks st evs) ∧ gapless (runChunks st evs).sources := by
  induction evs with
  | nil => exact fun st hc hg _ => ⟨hc, hg⟩
  | cons ev rest ih =>
    obtain ⟨now, dur⟩ := ev
    intro st hc hg hin
    obtain ⟨hnow, hrest⟩ := hin
    have hmax : max st.nextStartTime now = st.nextStartTime := max_eq_left hnow
    show cursorAtHead (runChunks (handleAudioChunk now dur st) rest) ∧ _
    apply ih
    · show cursorAtHead _
      unfold cursorAtHead
      simp [handleAudioChunk, audioPre, decodeDone]
    · show gapless (handleAudioChunk now dur st).sources
      rw [(handleAudioChunk_unfold now dur st).1, hmax]
      cases hs : st.sources with
      | nil => simp [gapless]
      | cons u tl =>
        rw [hs] at hg
        refine List.Chain'.cons ?_ hg
        have := hc
        unfold cursorAtHead at this
        rw [hs] at this
        exact this
    · show inTime (handleAudioChunk now dur st).nextStartTime rest
      rw [(handleAudioChunk_unfold now dur st).2]
      exact hrest

/-- Invariant preservation without any timeliness hypothesis: the cursor
stays at the end of the head unit and consecutive units never overlap,
whatever the arrival clocks are. -/
theorem runChunks_overlapFree_inv (evs : List (ℚ × ℚ)) :
    ∀ st : LiveState, cursorAtHead st → overlapFree st.sources →
      cursorAtHead (runChunks st evs) ∧ overlapFree (runChunks st evs).sources := by
  induction evs with
  | nil => exact fun st hc ho => ⟨hc, ho⟩
  | cons ev rest ih =>
    obtain ⟨now, dur⟩ := ev
    intro st hc ho
    show cursorAtHead (runChunks (handleAudioChunk now dur st) rest) ∧ _
    apply ih
    · show cursorAtHead _
      unfold cursorAtHead
      simp [handleAudioChunk, audioPre, decodeDone]
    · show overlapFree (handleAudioChunk now dur st).sources
      rw [(handleAudioChunk_unfold now dur st).1]
      cases hs : st.sources with
      | nil => simp [overlapFree]
      | cons u tl =>
        rw [hs] at ho
        refine List.Chain'.cons ?_ ho
        have hhead := hc
        unfold cursorAtHead at hhead
        rw [hs] at hhead
        show u.1 + u.2 ≤ max st.nextStartTime now
        rw [← hhead]
        exact le_max_left _ _

/-- C1 counterexample: two chunks of duration 1, the second arriving
when the output clock already reads 2, are scheduled at start times 0
and 2: the second start is not the first start plus its duration, so the
schedule has a gap and the claimed equality fails for this arrival
timing. -/
theorem scheduler_gap_on_late_arrival :
    (runChunks initState [((0 : ℚ), (1 : ℚ)), ((2 : ℚ), (1 : ℚ))]).sources =
      [((2 : ℚ), (1 : ℚ)), ((0 : ℚ), (1 : ℚ))] ∧
    ¬ ((2 : ℚ) = 0 + 1) := by
  constructor
  · show (handleAudioChunk 2 1 (handleAudioChunk 0 1 initState)).sources = _
    rw [(handleAudioChunk_unfold _ _ _).1, (handleAudioChunk_unfold _ _ _).1]
    rw [(handleAudioChunk_unfold _ _ _).2]
    show ((max (max initState.nextStartTime 0 + 1) 2, 1) ::
      (max initState.nextStartTime 0, 1) :: initState.sources) = _
    norm_num [initState]
  · norm_num

/-- C1 (amended): consecutive units of one uninterrupted assistant turn,
taken in scheduling order, never overlap; and whenever every chunk is
processed while the output clock has not passed the cursor (the inTime
condition), each unit starts exactly where the previous one ends — the
gapless equality of the claim.  A chunk processed after the clock has
passed the cursor starts at the clock instead, leaving a gap. -/
theorem scheduler_gapless_when_in_time :
    (∀ evs : List (ℚ × ℚ), inTime initState.nextStartTime evs →
        gapless (runChunks initState evs).sources) ∧
    (∀ evs : List (ℚ × ℚ), overlapFree (runChunks initState evs).sources) := by
  constructor
  · intro evs h
    exact (runChunks_gapless_inv evs initState trivial (by simp [gapless, initState]) h).2
  · intro evs
    exact (runChunks_overlapFree_inv evs initState trivial
      (by simp [overlapFree, initState])).2

/-- Witness for the gapless half: three timely unit-duration chunks are
scheduled gaplessly. -/
theorem scheduler_gapless_when_in_time_witness :
    inTime initState.nextStartTime
      [((0 : ℚ), (1 : ℚ)), ((0 : ℚ), (1 : ℚ)), ((1 : ℚ), (1 : ℚ))] ∧
    gapless (runChunks initState
      [((0 : ℚ), (1 : ℚ)), ((0 : ℚ), (1 : ℚ)), ((1 : ℚ), (1 : ℚ))]).sources := by
  have h : inTime initState.nextStartTime
      [((0 : ℚ), (1 : ℚ)), ((0 : ℚ), (1 : ℚ)), ((1 : ℚ), (1 : ℚ))] := by
    norm_num [inTime, initState]
  exact ⟨h, scheduler_gapless_when_in_time.1 _ h⟩

/-- Alphabet characters decode back to their index. -/
theorem b64value_b64char : ∀ n, n < 64 → b64value (b64char n) = n := by decide

/-- Alphabet characters are never the padding character. -/
theorem b64char_ne_pad : ∀ n, n < 64 → b64char n ≠ '=' := by decide

/-- Base64 transport round trip: decoding an encoded byte list returns
the byte list, for byte values below 256. -/
theorem decode_encode : ∀ bs : List Nat, (∀ b ∈ bs, b < 256) → decode (encode bs) = bs
  | [], _ => rfl
  | [a], h => by
      have ha : a < 256 := h a (by simp)
      have h1 : a / 4 < 64 := by omega
      have h2 : (a % 4) * 16 < 64 := by omega
      simp [encode, decode, b64value_b64char _ h1, b64value_b64char _ h2]
      omega
  | [a, b], h => by
      have ha : a < 256 := h a (by simp)
      have hb : b < 256 := h b (by simp)
      have h1 : a / 4 < 64 := by omega
      have h2 : (a % 4) * 16 + b / 16 < 64 := by omega
      have h3 : (b % 16) * 4 < 64 := by omega
      simp [encode, decode, b64char_ne_pad _ h3,
        b64value_b64char _ h1, b64value_b64char _ h2, b64value_b64char _ h3]
      constructor <;> omega
  | a :: b :: c :: rest, h => by
      have ha : a < 256 := h a (by simp)
      have hb : b < 256 := h b (by simp)
      have hc : c < 256 := h c (by simp)
      have h1 : a / 4 < 64 := by omega
      have h2 : (a % 4) * 16 + b / 16 < 64 := by omega
      have h3 : (b % 16) * 4 + c / 64 < 64 := by omega
      have h4 : c % 64 < 64 := by omega
      have ih := decode_encode rest (fun x hx => h x (by simp [hx]))
      simp [encode, decode, b64char_ne_pad _ h3, b64char_ne_pad _ h4,
        b64value_b64char _ h1, b64value_b64char _ h2, b64value_b64char _ h3,
        b64value_b64char _ h4, ih]
      refine ⟨by omega, by omega, by omega⟩

/-- Bytes of the little-endian view are below 256. -/
theorem int16ToBytes_lt (v : ℤ) : ∀ b ∈ int16ToBytes v, b < 256 := by
  intro b hb
  have h0 : 0 ≤ v % 65536 := Int.emod_nonneg v (by norm_num)
  have h1 : v % 65536 < 65536 := Int.emod_lt_of_pos v (by norm_num)
  simp only [int16ToBytes, List.mem_cons, List.not_mem_nil, or_false] at hb
  rcases hb with h | h <;> subst h <;> omega

/-- All bytes of a blob are below 256. -/
theorem createBlobBytes_lt (data : List ℚ) : ∀ b ∈ createBlobBytes data, b < 256 := by
  intro b hb
  simp only [createBlobBytes, List.mem_flatMap] at hb
  obtain ⟨v, _, hv⟩ := hb
  exact int16ToBytes_lt v b hv

/-- The Int16Array view recovers the signed values from the little-endian
byte pairs, for values in the signed 16-bit range. -/
theorem bytesToInt16s_flatMap (l : List ℤ) (h : ∀ v ∈ l, -32768 ≤ v ∧ v < 32768) :
    bytesToInt16s (l.flatMap int16ToBytes) = l := by
  induction l with
  | nil => rfl
  | cons v rest ih =>
    obtain ⟨hlo, hhi⟩ := h v (by simp)
    have hrest := ih (fun w hw => h w (by simp [hw]))
    have h0 : 0 ≤ v % 65536 := Int.emod_nonneg v (by norm_num)
    have h1 : v % 65536 < 65536 := Int.emod_lt_of_pos v (by norm_num)
    show bytesToInt16s ((v % 65536).toNat % 256 :: (v % 65536).toNat / 256 ::
      rest.flatMap int16ToBytes) = v :: rest
    simp only [bytesToInt16s, hrest, List.cons.injEq, and_true]
    split <;> omega

/-- toInt16 always lands in the signed 16-bit range. -/
theorem toInt16_range (x : ℚ) : -32768 ≤ toInt16 x ∧ toInt16 x < 32768 := by
  unfold toInt16
  have h0 : 0 ≤ truncJS x % 65536 := Int.emod_nonneg _ (by norm_num)
  have h1 : truncJS x % 65536 < 65536 := Int.emod_lt_of_pos _ (by norm_num)
  split <;> omega

/-- Truncation toward zero moves a value by at most one. -/
theorem truncJS_abs_le (x : ℚ) : |x - (truncJS x : ℚ)| ≤ 1 := by
  unfold truncJS
  split
  · rw [abs_sub_le_iff]
    constructor
    · linarith [Int.lt_floor_add_one x]
    · linarith [Int.floor_le x]
  · rw [abs_sub_le_iff]
    constructor
    · linarith [Int.le_ceil x]
    · linarith [Int.ceil_lt_add_one x]

/-- Truncation of a value of [-32768, 32768) stays in the signed 16-bit
range. -/
theorem truncJS_range (x : ℚ) (hlo : -32768 ≤ x) (hhi : x < 32768) :
    -32768 ≤ truncJS x ∧ truncJS x < 32768 := by
  unfold truncJS
  split
  · constructor
    · exact Int.le_floor.mpr (by exact_mod_cast hlo)
    · exact Int.floor_lt.mpr (by exact_mod_cast hhi)
  · rename_i hneg
    have hx0 : x ≤ 0 := le_of_lt (not_le.mp hneg)
    constructor
    · have hce := Int.le_ceil x
      have : ((-32768 : ℤ) : ℚ) ≤ (⌈x⌉ : ℚ) := by
        push_cast
        linarith
      exact_mod_cast this
    · have : ⌈x⌉ ≤ 0 := Int.ceil_le.mpr (by exact_mod_cast hx0)
      omega

/-- On the signed 16-bit range the wraparound is the identity. -/
theorem toInt16_of_range (x : ℚ) (h1 : -32768 ≤ truncJS x) (h2 : truncJS x < 32768) :
    toInt16 x = truncJS x := by
  unfold toInt16
  have h0 : 0 ≤ truncJS x % 65536 := Int.emod_nonneg _ (by norm_num)
  have hlt : truncJS x % 65536 < 65536 := Int.emod_lt_of_pos _ (by norm_num)
  split <;> omega

/-- The mono channel extracted by the decodeAudioData call of onmessage
is exactly the int16 sequence divided by 32768. -/
theorem decodeAudioData_mono (data : List Nat) :
    (decodeAudioData data 1).headD [] =
      (bytesToInt16s data).map (fun (v : ℤ) => (v : ℚ) / 32768) := by
  unfold decodeAudioData
  have hr : List.range 1 = [0] := rfl
  simp only [hr, List.map_cons, List.map_nil, List.headD_cons, Nat.div_one]
  apply List.ext_getElem
  · simp
  · intro i hi1 hi2
    simp only [List.getElem_map, List.getElem_range, mul_one, add_zero]
    rw [List.getD_eq_getElem?_getD, List.getElem?_eq_getElem (by simpa using hi2)]
    simp

/-- Composition of the full inbound path: base64 decode of the blob,
Int16Array reinterpretation and division recover exactly the wrapped
int16 value of every sample, divided by 32768. -/
theorem monoRoundTrip_eq (data : List ℚ) :
    monoRoundTrip data =
      (createBlobInt16 data).map (fun (v : ℤ) => (v : ℚ) / 32768) := by
  unfold monoRoundTrip createBlobData
  rw [decode_encode _ (createBlobBytes_lt data), decodeAudioData_mono]
  unfold createBlobBytes
  rw [bytesToInt16s_flatMap]
  intro v hv
  unfold createBlobInt16 at hv
  simp only [List.mem_map] at hv
  obtain ⟨s, _, rfl⟩ := hv
  exact toInt16_range _

/-- Quantization error of one in-range sample: at most one step. -/
theorem roundtrip_sample_bound (s : ℚ) (hlo : -1 ≤ s) (hhi : s < 1) :
    |s - ((toInt16 (s * 32768) : ℤ) : ℚ) / 32768| ≤ 1 / 32768 := by
  have hx1 : (-32768 : ℚ) ≤ s * 32768 := by linarith
  have hx2 : s * 32768 < 32768 := by linarith
  obtain ⟨h1, h2⟩ := truncJS_range _ hx1 hx2
  rw [toInt16_of_range _ h1 h2]
  have habs := truncJS_abs_le (s * 32768)
  have heq : s - (truncJS (s * 32768) : ℚ) / 32768 =
      (s * 32768 - (truncJS (s * 32768) : ℚ)) / 32768 := by ring
  rw [heq, abs_div, abs_of_pos (by norm_num : (0 : ℚ) < 32768)]
  exact (div_le_div_iff_of_pos_right (by norm_num)).mpr habs

/-- C2 counterexample: the sample 1 lies in the closed interval [-1, 1]
of the claim, yet the encode-decode round trip returns -1 for it (32768
wraps to -32768 in the Int16Array), an error of 2, far above one
quantization step.  The in-range half of the claim therefore fails at
the right endpoint. -/
theorem codec_wraps_at_one :
    ((-1 : ℚ) ≤ 1 ∧ (1 : ℚ) ≤ 1) ∧
    monoRoundTrip [(1 : ℚ)] = [-1] ∧
    ¬ (|(1 : ℚ) - (-1)| ≤ 1 / 32768) := by
  refine ⟨by norm_num, ?_, by norm_num⟩
  rw [monoRoundTrip_eq]
  have ht : truncJS ((1 : ℚ) * 32768) = 32768 := by
    unfold truncJS
    rw [if_pos (by norm_num)]
    norm_num
  unfold createBlobInt16 toInt16
  simp only [List.map_cons, List.map_nil, ht]
  norm_num

/-- C2 (amended): for samples in [-1, 1) the encode-decode round trip
returns a sequence of the same length whose entries differ from the
input by at most one quantization step 1/32768 (the Forall₂ relation
enforces both); at the right endpoint 1 and beyond the property fails —
witnessed here by 3/2, which decodes to -1/2, an error far above one
step. -/
theorem codec_roundtrip_in_open_range :
    (∀ data : List ℚ, (∀ s ∈ data, -1 ≤ s ∧ s < 1) →
        List.Forall₂ (fun s t => |s - t| ≤ 1 / 32768) data (monoRoundTrip data)) ∧
    monoRoundTrip [3 / 2] = [-(1 / 2)] ∧
    ¬ (|(3 / 2 : ℚ) - (-(1 / 2))| ≤ 1 / 32768) := by
  refine ⟨?_, ?_, by norm_num⟩
  · intro data h
    rw [monoRoundTrip_eq]
    unfold createBlobInt16
    rw [List.map_map, List.forall₂_map_right_iff, List.forall₂_same]
    intro s hs
    obtain ⟨hlo, hhi⟩ := h s hs
    exact roundtrip_sample_bound s hlo hhi
  · rw [monoRoundTrip_eq]
    have ht : truncJS ((3 / 2 : ℚ) * 32768) = 49152 := by
      unfold truncJS
      rw [if_pos (by norm_num)]
      norm_num
    unfold createBlobInt16 toInt16
    simp only [List.map_cons, List.map_nil, ht]
    norm_num

/-- Witness for the in-range half of the amended round-trip law at the
concrete sample 1/2. -/
theorem codec_roundtrip_in_open_range_witness :
    (∀ s ∈ [(1 : ℚ) / 2], -1 ≤ s ∧ s < 1) ∧
    List.Forall₂ (fun s t => |s - t| ≤ 1 / 32768) [(1 : ℚ) / 2] (monoRoundTrip [1 / 2]) := by
  have h : ∀ s ∈ [(1 : ℚ) / 2], -1 ≤ s ∧ s < 1 := by norm_num
  exact ⟨h, codec_roundtrip_in_open_range.1 _ h⟩

end QLV
